import Mathlib

/-!
Verification development for the HexScribe hex-lattice and trail-routing
engine (`hexscribe/hexgrid.py`, `hexscribe/trails.py`,
`hexscribe/renderer.py`).

Modeling conventions:
* Python float arithmetic is modeled exactly over `ℚ`; the constant
  `SQ3 = math.sqrt(3)` is modeled by the value of the IEEE-754 double
  nearest to the square root of 3, and the square root computed by
  `math.hypot` (used only to normalize directions when trimming trail
  endpoints) is abstracted as an explicit function parameter `sqrtF`:
  every theorem below holds for every choice of `sqrtF`.
* Python `int(x)` is truncation toward zero (`pyInt`).
* The process-wide `random` module is modeled as a state `RngState`
  holding a stream `ℕ → ℚ` of draws (intended in `[0, 1)`) and a cursor.
  `random.randint` and the index draws of `random.shuffle` are clamped
  into their documented ranges, which is an invariant of the Python
  functions themselves.
* The unbounded `while openq:` loop of A* runs on an explicit fuel; all
  properties proved below hold for every fuel value.
-/

namespace HexScribe

/-- Python `int(x)`: truncation toward zero. -/
def pyInt (x : ℚ) : ℤ := if 0 ≤ x then ⌊x⌋ else ⌈x⌉

/-- `SQ3 = math.sqrt(3)` (`hexgrid.py` line 6), modeled by the IEEE-754
double nearest to the square root of 3. -/
def SQ3 : ℚ := 1.7320508075688772

/-- An axial lattice coordinate `(q, r)`. -/
abbrev Node := ℤ × ℤ

/-! ### HexGrid (`hexscribe/hexgrid.py`) -/

/-- One retained lattice cell: axial coordinates plus the stored pixel
position `(int(x), int(y))` (`draw_grid`, line 99). -/
structure HexNode where
  q : ℤ
  r : ℤ
  x : ℤ
  y : ℤ
deriving Repr, DecidableEq

/-- The data contents of a `HexGrid` after `draw_grid`: the retained node
list.  `node_lookup` and `centers` are maintained in lockstep with
`nodes` in the source and are derived from it here. -/
structure HexGrid where
  nodes : List HexNode
deriving Repr, DecidableEq

/-- First node of the list with the given axial key. -/
def findNode : List HexNode → Node → Option (ℤ × ℤ)
  | [], _ => none
  | c :: t, n => if c.q = n.1 ∧ c.r = n.2 then some (c.x, c.y) else findNode t n

/-- `node_lookup[(q, r)]`, derived from the node list. -/
def HexGrid.node_lookup (g : HexGrid) (n : Node) : Option (ℤ × ℤ) :=
  findNode g.nodes n

/-- `(q, r) in node_lookup`. -/
def HexGrid.containsNode (g : HexGrid) (n : Node) : Bool :=
  (g.node_lookup n).isSome

/-- `AXIAL_DIRS` (`hexgrid.py` line 40): the six flat-top axial
direction vectors. -/
def AXIAL_DIRS : List Node := [(1, 0), (1, -1), (0, -1), (-1, 0), (-1, 1), (0, 1)]

/-- `HexGrid.neighbors` (`hexgrid.py` lines 42-48): the lattice
neighbors of `(q, r)` in the six axial directions that are themselves
member cells. -/
def HexGrid.neighbors (g : HexGrid) (q r : ℤ) : List Node :=
  AXIAL_DIRS.filterMap fun d =>
    let n : Node := (q + d.1, r + d.2)
    if g.containsNode n then some n else none

/-- `HexGrid.point_in_hex` (`hexgrid.py` lines 33-37), with the
tolerances exactly as in the source: the `px > R` rejection carries no
tolerance, the other two conditions carry `+ 1`. -/
def point_in_hex (cx cy R x y : ℚ) : Bool :=
  let px := |x - cx|
  let py := |y - cy|
  if px > R ∨ py > R * SQ3 / 2 + 1 then false
  else decide (SQ3 * px + py ≤ SQ3 * R + 1)

/-- `HexGrid.__init__` (`hexgrid.py` line 18): the requested
cell-count-across is silently clamped: `int(max(2, cells_across))`. -/
def hexGridInitCells (cells_across : ℤ) : ℤ := max 2 cells_across

/-- The layout arguments of `draw_grid` plus the constructor argument it
reads (`cells_across`, stored clamped by `__init__`). -/
structure GridConfig where
  cells_across : ℤ
  left : ℤ
  top : ℤ
  right : ℤ
  bottom : ℤ

/-- `cx = (left + right) // 2`. -/
def gridCx (c : GridConfig) : ℤ := (c.left + c.right).fdiv 2

/-- `cy = (top + bottom) // 2`. -/
def gridCy (c : GridConfig) : ℤ := (c.top + c.bottom).fdiv 2

/-- `R = int(min(right - left, bottom - top) / 2) - 6`. -/
def gridR (c : GridConfig) : ℤ :=
  pyInt ((min (c.right - c.left) (c.bottom - c.top) : ℚ) / 2) - 6

/-- `s = (4.0 * R) / (3.0 * C + 1.0) * 0.985` where `C` is the clamped
cell count (`draw_grid`, line 59). -/
def cellSize (c : GridConfig) : ℚ :=
  4 * (gridR c : ℚ) / (3 * (hexGridInitCells c.cells_across : ℚ) + 1) * 0.985

/-- `q_max = int(R / (1.5 * s)) + 3`. -/
def qMax (c : GridConfig) : ℤ := pyInt ((gridR c : ℚ) / (1.5 * cellSize c)) + 3

/-- `r_max = int(R / (SQ3 * s)) + 3`. -/
def rMax (c : GridConfig) : ℤ := pyInt ((gridR c : ℚ) / (SQ3 * cellSize c)) + 3

/-- The integers of Python `range(lo, hi + 1)`. -/
def rangeInt (lo hi : ℤ) : List ℤ :=
  (List.range (hi + 1 - lo).toNat).map fun i : ℕ => lo + (i : ℤ)

/-- `x = cx + (1.5 * s) * q` (`draw_grid`, line 70). -/
def axialX (c : GridConfig) (q : ℤ) : ℚ := (gridCx c : ℚ) + 1.5 * cellSize c * (q : ℚ)

/-- `y = cy + (SQ3 * s) * (r + q / 2.0)` (`draw_grid`, line 71). -/
def axialY (c : GridConfig) (q r : ℤ) : ℚ :=
  (gridCy c : ℚ) + SQ3 * cellSize c * ((r : ℚ) + (q : ℚ) / 2)

/-- The axial scan window of `draw_grid` (lines 68-72). -/
def allCenters (c : GridConfig) : List Node :=
  (rangeInt (-(qMax c)) (qMax c)).flatMap fun q =>
    (rangeInt (-(rMax c)) (rMax c)).map fun r => (q, r)

/-- The retention test of `draw_grid` (line 98):
`point_in_hex(cx, cy, R - s * 1.2, x, y)`. -/
def keepCell (c : GridConfig) (q r : ℤ) : Bool :=
  point_in_hex (gridCx c : ℚ) (gridCy c : ℚ) ((gridR c : ℚ) - cellSize c * 1.2)
    (axialX c q) (axialY c q r)

/-- The retained node list of `draw_grid` (lines 94-101): scan window
filtered by `keepCell`, storing `(int(x), int(y))`. -/
def gridNodes (c : GridConfig) : List HexNode :=
  ((allCenters c).filter fun p => keepCell c p.1 p.2).map fun p =>
    { q := p.1, r := p.2, x := pyInt (axialX c p.1), y := pyInt (axialY c p.1 p.2) }

/-- `draw_grid`: produces the retained lattice.  When `s = 0` the Python
code would raise `ZeroDivisionError` computing `q_max`; that is the only
failure path, modeled explicitly. -/
def draw_grid (c : GridConfig) : Except String HexGrid :=
  if cellSize c = 0 then .error "ZeroDivisionError"
  else .ok { nodes := gridNodes c }

/-! ### The `random` module model -/

/-- The process-wide `random` generator state: a stream of raw draws
(each intended in `[0, 1)`) and a cursor. -/
structure RngState where
  stream : ℕ → ℚ
  k : ℕ

/-- One raw draw (`random.random()`). -/
def nextRand (g : RngState) : ℚ × RngState :=
  (g.stream g.k, { g with k := g.k + 1 })

/-- The value of `random.uniform(a, b)` for raw draw `r`. -/
def pyUniformVal (a b r : ℚ) : ℚ := a + (b - a) * r

/-- `random.randint(a, b)` for `a ≤ b`: a uniform integer of `[a, b]`.
The result is clamped into `[a, b]`, which is an invariant of the Python
function, so the model keeps it for every stream. -/
def pyRandint (a b : ℤ) (g : RngState) : ℤ × RngState :=
  let r := (nextRand g).1
  (a + max 0 (min (b - a) ⌊r * ((b : ℚ) - (a : ℚ) + 1)⌋), (nextRand g).2)

/-- The index draw of `random.shuffle` (`_randbelow(n)` for `n ≥ 1`),
clamped into `[0, n - 1]` like the Python function guarantees. -/
def pyRandbelow (n : ℕ) (g : RngState) : ℕ × RngState :=
  let r := (nextRand g).1
  (min (n - 1) (⌊r * (n : ℚ)⌋).toNat, (nextRand g).2)

/-- Swap two positions of a list (in-range positions only). -/
def listSwap {α : Type} (l : List α) (i j : ℕ) : List α :=
  match l.get? i, l.get? j with
  | some a, some b => (l.set i b).set j a
  | _, _ => l

/-- The Fisher-Yates loop of `random.shuffle`: indices `i` from
`len - 1` down to `1`, swapping with a drawn `j ≤ i`. -/
def pyShuffleGo {α : Type} : ℕ → List α → RngState → List α × RngState
  | 0, l, g => (l, g)
  | i + 1, l, g =>
    pyShuffleGo i (listSwap l (i + 1) (pyRandbelow (i + 2) g).1) (pyRandbelow (i + 2) g).2

/-- `random.shuffle(l)` as a pure function of the generator state. -/
def pyShuffle {α : Type} (l : List α) (g : RngState) : List α × RngState :=
  pyShuffleGo (l.length - 1) l g

/-! ### TrailRouter (`hexscribe/trails.py`) -/

/-- `NO_OVERLAP_DIST = 14` (`trails.py` line 7). -/
def NO_OVERLAP_DIST : ℚ := 14

/-- A pixel point. -/
abbrev Pt := ℚ × ℚ

/-- An accepted trail as logged into `samples_log`: style tag plus its
sample polyline. -/
abbrev Trail := String × List Pt

/-- The persistent `TrailRouter` instance state (`__init__`, lines
29-30).  The renderer creates one router and reuses it for every
rendering pass. -/
structure RouterState where
  samples_log : List Trail
  used_edges : List (Node × Node)

/-- A fresh `TrailRouter()`. -/
def routerInit : RouterState := { samples_log := [], used_edges := [] }

/-- `TrailRouter._style` (lines 33-38): an 8-sided die mapped onto the
four styles. -/
def styleOf (r : ℤ) : String :=
  if 1 ≤ r ∧ r ≤ 4 then "path"
  else if 5 ≤ r ∧ r ≤ 6 then "difficult"
  else if r = 7 then "dangerous"
  else "special"

/-- `_style()` as a stateful draw. -/
def pickStyle (g : RngState) : String × RngState :=
  (styleOf (pyRandint 1 8 g).1, (pyRandint 1 8 g).2)

/-- `TrailRouter._closest_node` (lines 41-48): best squared distance
scan with initial bound `10 ** 9`; `None` when nothing beats it. -/
def closest_node (grid : HexGrid) (x y : ℚ) : Option Node :=
  (grid.nodes.foldl
    (fun (acc : Option Node × ℚ) n =>
      let dd := ((n.x : ℚ) - x) ^ 2 + ((n.y : ℚ) - y) ^ 2
      if dd < acc.2 then (some (n.q, n.r), dd) else acc)
    (none, 1000000000)).1

/-- Python tuple order on `(q, r)` pairs (strict). -/
def nodeLt (a b : Node) : Prop := a.1 < b.1 ∨ (a.1 = b.1 ∧ a.2 < b.2)

instance (a b : Node) : Decidable (nodeLt a b) := by
  unfold nodeLt; infer_instance

/-- `TrailRouter._edge_key` (lines 50-51): `tuple(sorted([a, b]))`. -/
def edge_key (a b : Node) : Node × Node :=
  if nodeLt b a then (b, a) else (a, b)

/-- One A* edge-cost evaluation (`_astar`, lines 79-83): base `1.0`,
plus `2.0` when the unordered edge is in `used_edges`, plus
`random.uniform(0.0, 0.25)` applied to raw draw `r`. -/
def stepCost (used : List (Node × Node)) (a b : Node) (r : ℚ) : ℚ :=
  let step : ℚ := 1
  let step := if edge_key a b ∈ used then step + 2 else step
  step + pyUniformVal 0 0.25 r

/-- The A* heuristic `h` (lines 58-61): hex-grid distance to the goal. -/
def hexDist (p goal : Node) : ℚ :=
  ((|p.1 - goal.1| + |p.1 + p.2 - (goal.1 + goal.2)| + |p.2 - goal.2| : ℤ) : ℚ) / 2

/-- Priority order of `heapq` entries `(f, node)`: lexicographic tuple
comparison (non-strict). -/
def entryLe (x y : ℚ × Node) : Prop :=
  x.1 < y.1 ∨ (x.1 = y.1 ∧ (x.2 = y.2 ∨ nodeLt x.2 y.2))

instance (x y : ℚ × Node) : Decidable (entryLe x y) := by
  unfold entryLe; infer_instance

/-- Extract a minimal entry (`heapq.heappop`): the heap is modeled as
the list of its entries; the popped entry is a `entryLe`-minimum. -/
def popMin : List (ℚ × Node) → Option ((ℚ × Node) × List (ℚ × Node))
  | [] => none
  | e :: rest =>
    match popMin rest with
    | none => some (e, [])
    | some (m, r1) => if entryLe e m then some (e, m :: r1) else some (m, e :: r1)

/-- Association-list lookup (Python dict: assignment conses, lookup
takes the newest binding). -/
def alookup {β : Type} : List (Node × β) → Node → Option β
  | [], _ => none
  | (a, b) :: t, k => if k = a then some b else alookup t k

/-- The mutable locals of the A* loop. -/
structure AstarState where
  openq : List (ℚ × Node)
  came : List (Node × Node)
  g : List (Node × ℚ)
  rng : RngState

/-- The body of the neighbor loop of `_astar` (lines 76-89) for one
neighbor `nbr` of the expanded node `cur`.  Dict assignment is modeled
by consing onto an association list (lookup returns the newest entry);
`g[cur]` is always defined when this runs (invariant proved below), so
the default of `getD` is never exercised. -/
def expandNbr (used : List (Node × Node)) (goal : Node) (blocked : List Node)
    (cur : Node) (st : AstarState) (nbr : Node) : AstarState :=
  if nbr ∈ blocked then st
  else
    let step := stepCost used cur nbr (nextRand st.rng).1
    let ng := (alookup st.g cur).getD 0 + step
    if ng < (alookup st.g nbr).getD 1000000000 then
      { openq := (ng + hexDist nbr goal, nbr) :: st.openq
        came := (nbr, cur) :: st.came
        g := (nbr, ng) :: st.g
        rng := (nextRand st.rng).2 }
    else { st with rng := (nextRand st.rng).2 }

/-- Path reconstruction of `_astar` (lines 70-74), before the final
`reversed`: follow `came` from the goal.  The fuel (`came` size plus
one) is always sufficient (proved below), since the parent chain is
strictly `g`-decreasing. -/
def reconstruct (came : List (Node × Node)) : Node → ℕ → List Node
  | cur, 0 => [cur]
  | cur, fuel + 1 =>
    match alookup came cur with
    | none => [cur]
    | some prev => cur :: reconstruct came prev fuel

/-- The `while openq:` loop of `_astar` (lines 67-90), on explicit
fuel. -/
def astarLoop (grid : HexGrid) (goal : Node) (blocked : List Node)
    (used : List (Node × Node)) : ℕ → AstarState → List Node × RngState
  | 0, st => ([], st.rng)
  | fuel + 1, st =>
    match popMin st.openq with
    | none => ([], st.rng)
    | some ((_, cur), rest) =>
      if cur = goal then
        ((reconstruct st.came cur (st.came.length + 1)).reverse, st.rng)
      else
        let st1 := (grid.neighbors cur.1 cur.2).foldl
          (expandNbr used goal blocked cur) { st with openq := rest }
        astarLoop grid goal blocked used fuel st1

/-- `TrailRouter._astar` (lines 54-90). -/
def astar (grid : HexGrid) (start goal : Node) (blocked : List Node)
    (used : List (Node × Node)) (fuel : ℕ) (rng : RngState) : List Node × RngState :=
  astarLoop grid goal blocked used fuel
    { openq := [(0, start)], came := [], g := [(start, 0)], rng := rng }

/-- `TrailRouter._poly_from_axial` (lines 93-95).  Every node of an A*
path is a key of `node_lookup`, so the `getD` default is never
exercised. -/
def poly_from_axial (grid : HexGrid) (path_ax : List Node) : List Pt :=
  path_ax.map fun n =>
    let p := (grid.node_lookup n).getD (0, 0)
    ((p.1 : ℚ), (p.2 : ℚ))

/-- `TrailRouter._trim_to_diamond_edge` (lines 97-102), with the square
root of `math.hypot` supplied as `sqrtF` (`L = hypot(dx, dy) or 1.0`). -/
def trim_to_diamond_edge (sqrtF : ℚ → ℚ) (center toward : Pt) (radius_px : ℚ) : Pt :=
  let dx := toward.1 - center.1
  let dy := toward.2 - center.2
  let L0 := sqrtF (dx ^ 2 + dy ^ 2)
  let L := if L0 = 0 then 1 else L0
  (center.1 + dx / L * (radius_px + 2), center.2 + dy / L * (radius_px + 2))

/-- The two corner-cut points of a Chaikin edge `(a, b)`. -/
def chaikinCut (a b : Pt) : List Pt :=
  [(0.75 * a.1 + 0.25 * b.1, 0.75 * a.2 + 0.25 * b.2),
   (0.25 * a.1 + 0.75 * b.1, 0.25 * a.2 + 0.75 * b.2)]

/-- The inner edge loop of `_chaikin` (lines 111-115). -/
def chaikinPairs : List Pt → List Pt
  | a :: b :: rest => chaikinCut a b ++ chaikinPairs (b :: rest)
  | _ => []

/-- One `_chaikin` iteration (lines 110-117): first point, the cut
points of every edge, then the last point. -/
def chaikinStep (out : List Pt) : List Pt :=
  match out with
  | [] => []
  | x :: xs => x :: (chaikinPairs (x :: xs) ++ [(x :: xs).getLast (by simp)])

/-- `TrailRouter._chaikin` (lines 104-118): polylines of fewer than 3
points are returned unchanged, otherwise `iters` corner-cut passes. -/
def chaikin (pts : List Pt) (iters : ℕ := 2) : List Pt :=
  if pts.length < 3 then pts else chaikinStep^[iters] pts

/-- The endpoint trimming of `draw_trails` (lines 264-265): `poly[0]`
is replaced first, then `poly[-1]` is recomputed from the already
updated list (relevant when the polyline has exactly two points). -/
def trimEnds (sqrtF : ℚ → ℚ) (poly : List Pt) (radius : ℚ) : List Pt :=
  let p0 := trim_to_diamond_edge sqrtF (poly.getD 0 (0, 0)) (poly.getD 1 (0, 0)) radius
  let poly1 := poly.set 0 p0
  let n := poly1.length
  let pl := trim_to_diamond_edge sqrtF (poly1.getD (n - 1) (0, 0)) (poly1.getD (n - 2) (0, 0)) radius
  poly1.set (n - 1) pl

/-- Squared pixel distance. -/
def dist2 (p q : Pt) : ℚ := (p.1 - q.1) ^ 2 + (p.2 - q.2) ^ 2

/-- The spacing guard of `draw_trails` (lines 268-277): the candidate
is kept only when no sample pair comes strictly within
`NO_OVERLAP_DIST ** 2` in squared distance. -/
def overlapOk (poly existing : List Pt) : Bool :=
  poly.all fun p => existing.all fun e => ¬ dist2 p e < NO_OVERLAP_DIST ^ 2

/-- The spacing acceptance of `draw_trails` (lines 268-277): the guard
runs only when `existing_samples` is nonempty. -/
def passesGuard (poly existing : List Pt) : Bool :=
  if existing = [] then true else overlapOk poly existing

/-- The `used_edges` records of one accepted path (lines 284-285). -/
def pathEdges (p : List Node) : List (Node × Node) :=
  (p.zip p.tail).map fun uv => edge_key uv.1 uv.2

/-- The connector loop of `draw_trails` (lines 246-287), iterating `i`
over `range(segs)`; `acc` is the pass-local list of accepted trails and
`existing` the pass-local `existing_samples`. -/
def trailLoop (sqrtF : ℚ → ℚ) (grid : HexGrid) (pts : List Node)
    (all_blocked : List Node) (diamond_radius : ℚ) (fuel : ℕ) :
    ℕ → ℕ → RouterState → List Trail → List Pt → RngState →
    RouterState × List Trail × RngState
  | _, 0, router, acc, _, g => (router, acc, g)
  | i, n + 1, router, acc, existing, g =>
    let a := pts.getD i (0, 0)
    let b := pts.getD (i + 1) (0, 0)
    let style := (pickStyle g).1
    let g1 := (pickStyle g).2
    let blocked := all_blocked.filter fun x => x ≠ a ∧ x ≠ b
    let path_ax := (astar grid a b blocked router.used_edges fuel g1).1
    let g2 := (astar grid a b blocked router.used_edges fuel g1).2
    if path_ax.length < 2 then
      trailLoop sqrtF grid pts all_blocked diamond_radius fuel (i + 1) n router acc existing g2
    else
      let poly := trimEnds sqrtF (chaikin (poly_from_axial grid path_ax) 2) diamond_radius
      if passesGuard poly existing then
        let router1 : RouterState :=
          { samples_log := router.samples_log ++ [(style, poly)]
            used_edges := router.used_edges ++ pathEdges path_ax }
        trailLoop sqrtF grid pts all_blocked diamond_radius fuel (i + 1) n router1
          (acc ++ [(style, poly)]) (existing ++ poly) g2
      else
        trailLoop sqrtF grid pts all_blocked diamond_radius fuel (i + 1) n router acc existing g2

/-- `diamonds_ax = [self._closest_node(grid, x, y) for (x, y) in
diamond_centers]` (line 230), detecting the `None` results that an
empty scan would produce. -/
def mapClosest (grid : HexGrid) : List Pt → Option (List Node)
  | [] => some []
  | p :: t =>
    match closest_node grid p.1 p.2, mapClosest grid t with
    | some n, some ns => some (n :: ns)
    | _, _ => none

/-- `TrailRouter.draw_trails` (lines 213-287).  The `< 2` diamond guard
returns silently BEFORE the `_grid_ref` check; a missing grid raises
`RuntimeError`; an empty lattice would make `_closest_node` return
`None` and the subsequent unpacking raise a `TypeError`. -/
def draw_trails (sqrtF : ℚ → ℚ) (router : RouterState) (gridOpt : Option HexGrid)
    (diamond_centers : List Pt) (diamond_radius : ℚ) (max_trails : ℕ)
    (fuel : ℕ) (g : RngState) :
    Except String ((RouterState × List Trail) × RngState) :=
  if diamond_centers.length < 2 then .ok ((router, []), g)
  else
    match gridOpt with
    | none => .error "TrailRouter.draw_trails requires renderer to set _grid_ref to HexGrid"
    | some grid =>
      match mapClosest grid diamond_centers with
      | none => .error "TypeError"
      | some diamonds_ax =>
        let pts := (pyShuffle diamonds_ax g).1
        let g1 := (pyShuffle diamonds_ax g).2
        let upper : ℕ := min max_trails (pts.length - 1)
        let segs : ℕ :=
          if upper > 2 then (pyRandint 2 (upper : ℤ) g1).1.toNat
          else if upper ≥ 2 then 2 else upper
        let g2 : RngState := if upper > 2 then (pyRandint 2 (upper : ℤ) g1).2 else g1
        let out := trailLoop sqrtF grid pts diamonds_ax diamond_radius fuel 0 segs router [] [] g2
        .ok ((out.1, out.2.1), out.2.2)

/-! ### The trail block of `HexScreenRenderer.render`
(`renderer.py` lines 197-211) -/

/-- The trail-routing block of `render`: capture the ambient generator
state, seed from `hash(tuple(chosen_marks)) & 0xFFFFFFFF`, route with
`max_trails = 4`, and restore the captured state in a `finally`.
`hashF` models the Python `hash` builtin and `seedStream` the stream
that `random.seed` installs for a given seed. -/
def renderTrailBlock (hashF : List (ℤ × ℤ) → ℤ) (seedStream : ℤ → ℕ → ℚ)
    (sqrtF : ℚ → ℚ) (router : RouterState) (grid : HexGrid)
    (chosen_marks : List (ℤ × ℤ)) (diamond_centers : List Pt)
    (diamond_radius : ℚ) (fuel : ℕ) (amb : RngState) :
    Except String (RouterState × List Trail) × RngState :=
  let saved := amb
  let seed := hashF chosen_marks % 4294967296
  let seeded : RngState := { stream := seedStream seed, k := 0 }
  let res := draw_trails sqrtF router (some grid) diamond_centers diamond_radius 4 fuel seeded
  (res.map fun r => r.1, saved)

/-- The accepted-trail list of one routing call (empty on error). -/
def passTrails (res : Except String (RouterState × List Trail)) : List Trail :=
  match res with
  | .ok r => r.2
  | .error _ => []

/-- The router state after one routing call (unchanged on error). -/
def passRouter (router : RouterState) (res : Except String (RouterState × List Trail)) :
    RouterState :=
  match res with
  | .ok r => r.1
  | .error _ => router

/-- The pass-local accepted-trail list of one `draw_trails` call (empty
when the call raises). -/
def drawTrailsAccepted (sqrtF : ℚ → ℚ) (router : RouterState) (gridOpt : Option HexGrid)
    (diamond_centers : List Pt) (diamond_radius : ℚ) (max_trails : ℕ)
    (fuel : ℕ) (g : RngState) : List Trail :=
  match draw_trails sqrtF router gridOpt diamond_centers diamond_radius max_trails fuel g with
  | .ok r => r.1.2
  | .error _ => []

/-- The router state after one `draw_trails` call (unchanged when the
call raises). -/
def drawTrailsRouter (sqrtF : ℚ → ℚ) (router : RouterState) (gridOpt : Option HexGrid)
    (diamond_centers : List Pt) (diamond_radius : ℚ) (max_trails : ℕ)
    (fuel : ℕ) (g : RngState) : RouterState :=
  match draw_trails sqrtF router gridOpt diamond_centers diamond_radius max_trails fuel g with
  | .ok r => r.1.1
  | .error _ => router

/-- Two trails are spaced: every sample of one is at squared distance at
least `NO_OVERLAP_DIST ** 2` from every sample of the other. -/
def sepTrails (t u : Trail) : Prop :=
  ∀ p ∈ t.2, ∀ q ∈ u.2, NO_OVERLAP_DIST ^ 2 ≤ dist2 p q

/-- The point-in-hexagon test as the specification words it: all three
conditions `px ≤ R`, `py ≤ R√3/2`, `√3 px + py ≤ √3 R` with a 1-pixel
tolerance applied to each of them.  Stated only to compare with the
source `point_in_hex`, which carries no tolerance on the first
condition. -/
def point_in_hex_spec (cx cy R x y : ℚ) : Bool :=
  let px := |x - cx|
  let py := |y - cy|
  decide (px ≤ R + 1) && decide (py ≤ R * SQ3 / 2 + 1) &&
    decide (SQ3 * px + py ≤ SQ3 * R + 1)

/-! ### Concrete fixtures

A four-cell lattice shaped like a rhombus: `(1,2)` and `(3,1)` carry the
two diamonds, and the two middle cells `(2,2)` and `(2,1)` give exactly
two alternative two-hop routes between them. -/

/-- Concrete test lattice. -/
def gridA : HexGrid := { nodes := [
  { q := 1, r := 2, x := 10, y := 20 },
  { q := 2, r := 2, x := 20, y := 20 },
  { q := 2, r := 1, x := 20, y := 10 },
  { q := 3, r := 1, x := 30, y := 10 } ] }

/-- A pseudorandom-stream model in which every draw is `0`. -/
def streamZero : ℤ → ℕ → ℚ := fun _ _ => 0

/-- A model of the Python `hash` builtin returning `0`. -/
def hashZero : List (ℤ × ℤ) → ℤ := fun _ => 0

/-- A concrete stand-in for the square root of `math.hypot`. -/
def sqOne : ℚ → ℚ := fun _ => 1

/-- The two diamond centers of the fixture. -/
def centersA : List Pt := [(10, 20), (30, 10)]

/-- The chosen marks of the fixture (index, label). -/
def marksA : List (ℤ × ℤ) := [(0, 1), (3, 2)]

/-- The ambient generator state used by the concrete render calls. -/
def ambA : RngState := { stream := streamZero 0, k := 0 }

/-- The polyline produced for the route through `(2,1)`. -/
def polyA : List Pt := trimEnds sqOne (chaikin (poly_from_axial gridA [(3,1),(2,1),(1,2)]) 2) 3

/-- The polyline produced for the route through `(2,2)`. -/
def polyB : List Pt := trimEnds sqOne (chaikin (poly_from_axial gridA [(3,1),(2,2),(1,2)]) 2) 3

/-- The corridor edges of the route through `(2,1)`. -/
def edgesA : List (Node × Node) := [((2,1),(3,1)), ((1,2),(2,1))]

/-- The corridor edges of the route through `(2,2)`. -/
def edgesB : List (Node × Node) := [((2,2),(3,1)), ((1,2),(2,2))]

/-- The router state after the first rendering pass of the fixture. -/
def routerOne : RouterState :=
  passRouter routerInit
    (renderTrailBlock hashZero streamZero sqOne routerInit gridA marksA centersA 3 8 ambA).1

/-- A degenerate layout: zero-area rectangle, requested cell count 0. -/
def cfgD : GridConfig := { cells_across := 0, left := 0, top := 0, right := 0, bottom := 0 }

/-- A fine layout: 250 cells across a 200 by 200 box, making the cell
spacing smaller than one pixel. -/
def cfgB : GridConfig := { cells_across := 250, left := 0, top := 0, right := 200, bottom := 200 }

/-- The `g` score of a node (`g[...]` with default `0`; the default is
never exercised on reachable states). -/
def gval (g : List (Node × ℚ)) (n : Node) : ℚ := (alookup g n).getD 0

/-- The invariant of the A* loop state, relative to the grid, the
obstacle set and the start node:
the `g` map is defined on every open node and at `start` (with score
`0`), `g` scores are nonnegative, and every `came` binding records an
actual unblocked neighbor step whose `g` score strictly exceeds its
parent's, with parents that are themselves recorded (or the start). -/
structure AstarInv (grid : HexGrid) (blocked : List Node) (start : Node)
    (st : AstarState) : Prop where
  open_g : ∀ e ∈ st.openq, (alookup st.g e.2).isSome
  open_came : ∀ e ∈ st.openq, e.2 = start ∨ (alookup st.came e.2).isSome
  g_start : alookup st.g start = some 0
  g_nonneg : ∀ n v, alookup st.g n = some v → 0 ≤ v
  came_adj : ∀ n p, alookup st.came n = some p → n ∈ grid.neighbors p.1 p.2
  came_blocked : ∀ n p, alookup st.came n = some p → n ∉ blocked
  came_closed : ∀ n p, alookup st.came n = some p → p = start ∨ (alookup st.came p).isSome
  came_g : ∀ n p, alookup st.came n = some p →
    ∃ gp gn, alookup st.g p = some gp ∧ alookup st.g n = some gn ∧ gp < gn

/-! ## Evaluation of the fixture runs -/

set_option maxHeartbeats 4000000

lemma mapClosest_gridA : mapClosest gridA centersA = some [(1, 2), (3, 1)] := by
  norm_num [mapClosest, centersA, closest_node, gridA, List.foldl]

lemma centersA_length : centersA.length = 2 := by norm_num [centersA]

lemma shuffle_gridA : pyShuffle [((1:ℤ),(2:ℤ)), ((3:ℤ),(1:ℤ))] { stream := streamZero 0, k := 0 } =
    ([(3, 1), (1, 2)], { stream := streamZero 0, k := 1 }) := by
  norm_num [pyShuffle, pyShuffleGo, pyRandbelow, nextRand, listSwap, streamZero]

lemma style_gridA : pickStyle { stream := streamZero 0, k := 1 } =
    ("path", { stream := streamZero 0, k := 2 }) := by
  norm_num [pickStyle, pyRandint, nextRand, styleOf, streamZero]

/-- First pass: with no recorded corridor edges, A* routes through
`(2,1)` (the `heapq` tie-break pops the lexicographically smaller
node first). -/
lemma astar_pass_one : astar gridA (3, 1) (1, 2) [] [] 8 { stream := streamZero 0, k := 2 } =
    ([(3, 1), (2, 1), (1, 2)], { stream := streamZero 0, k := 7 }) := by
  norm_num [astar, astarLoop, expandNbr, popMin, entryLe, nodeLt, stepCost, edge_key,
    pyUniformVal, hexDist, nextRand, HexGrid.neighbors, HexGrid.containsNode,
    HexGrid.node_lookup, AXIAL_DIRS, gridA, reconstruct, alookup, findNode,
    List.filterMap, List.foldl, streamZero, Prod.ext_iff]

/-- Second pass: the corridor penalty on the recorded edges makes A*
route through `(2,2)` instead. -/
lemma astar_pass_two : astar gridA (3, 1) (1, 2) [] edgesA 8 { stream := streamZero 0, k := 2 } =
    ([(3, 1), (2, 2), (1, 2)], { stream := streamZero 0, k := 7 }) := by
  norm_num [astar, astarLoop, expandNbr, popMin, entryLe, nodeLt, stepCost, edge_key,
    pyUniformVal, hexDist, nextRand, HexGrid.neighbors, HexGrid.containsNode,
    HexGrid.node_lookup, AXIAL_DIRS, gridA, edgesA, reconstruct, alookup, findNode,
    List.filterMap, List.foldl, streamZero, Prod.ext_iff]

lemma trailLoop_pass_one : trailLoop sqOne gridA [(3,1),(1,2)] [(1,2),(3,1)] 3 8 0 1
    routerInit [] [] { stream := streamZero 0, k := 1 } =
    ({ samples_log := [("path", polyA)], used_edges := edgesA },
     [("path", polyA)], { stream := streamZero 0, k := 7 }) := by
  rw [trailLoop, style_gridA]
  norm_num [routerInit, astar_pass_one, pathEdges, edge_key, nodeLt, polyA, edgesA,
    passesGuard, trailLoop]

lemma trailLoop_pass_two : trailLoop sqOne gridA [(3,1),(1,2)] [(1,2),(3,1)] 3 8 0 1
    { samples_log := [("path", polyA)], used_edges := edgesA }
    [] [] { stream := streamZero 0, k := 1 } =
    ({ samples_log := [("path", polyA), ("path", polyB)], used_edges := edgesA ++ edgesB },
     [("path", polyB)], { stream := streamZero 0, k := 7 }) := by
  rw [trailLoop, style_gridA]
  norm_num [astar_pass_two, pathEdges, edge_key, nodeLt, polyB, edgesB, passesGuard, trailLoop]

lemma draw_trails_pass_one : draw_trails sqOne routerInit (some gridA) centersA 3 4 8
    { stream := streamZero 0, k := 0 } =
    .ok (({ samples_log := [("path", polyA)], used_edges := edgesA },
          [("path", polyA)]), { stream := streamZero 0, k := 7 }) := by
  rw [draw_trails]
  norm_num [mapClosest_gridA, centersA_length, shuffle_gridA, trailLoop_pass_one]

lemma draw_trails_pass_two : draw_trails sqOne { samples_log := [("path", polyA)], used_edges := edgesA }
    (some gridA) centersA 3 4 8 { stream := streamZero 0, k := 0 } =
    .ok (({ samples_log := [("path", polyA), ("path", polyB)], used_edges := edgesA ++ edgesB },
          [("path", polyB)]), { stream := streamZero 0, k := 7 }) := by
  rw [draw_trails]
  norm_num [mapClosest_gridA, centersA_length, shuffle_gridA, trailLoop_pass_two]

lemma render_pass_one : renderTrailBlock hashZero streamZero sqOne routerInit gridA marksA centersA 3 8 ambA =
    (.ok ({ samples_log := [("path", polyA)], used_edges := edgesA }, [("path", polyA)]), ambA) := by
  rw [renderTrailBlock]
  norm_num [hashZero, draw_trails_pass_one, Except.map]

lemma routerOne_eq : routerOne = { samples_log := [("path", polyA)], used_edges := edgesA } := by
  rw [routerOne, render_pass_one]
  rfl

lemma render_pass_two : renderTrailBlock hashZero streamZero sqOne routerOne gridA marksA centersA 3 8 ambA =
    (.ok ({ samples_log := [("path", polyA), ("path", polyB)], used_edges := edgesA ++ edgesB },
          [("path", polyB)]), ambA) := by
  rw [renderTrailBlock, routerOne_eq]
  norm_num [hashZero, draw_trails_pass_two, Except.map]

/-! ## General lemmas about the router loop -/

lemma trailLoop_used_append (sqrtF : ℚ → ℚ) (grid : HexGrid) (pts : List Node)
    (ab : List Node) (dr : ℚ) (fuel : ℕ) :
    ∀ (n i : ℕ) (router : RouterState) (acc : List Trail) (existing : List Pt) (g : RngState),
    ∃ extra, (trailLoop sqrtF grid pts ab dr fuel i n router acc existing g).1.used_edges =
      router.used_edges ++ extra := by
  intro n
  induction n with
  | zero =>
    intro i router acc existing g
    exact ⟨[], by simp [trailLoop]⟩
  | succ m ih =>
    intro i router acc existing g
    simp only [trailLoop]
    split_ifs <;>
      first
        | exact ih _ _ _ _ _
        | (obtain ⟨e1, he1⟩ := ih (i + 1) _ _ _ _
           exact ⟨_ ++ e1, by rw [← List.append_assoc]; exact he1⟩)

lemma edge_key_comm (a b : Node) : edge_key a b = edge_key b a := by
  obtain ⟨a1, a2⟩ := a
  obtain ⟨b1, b2⟩ := b
  simp only [edge_key, nodeLt]
  split_ifs with h1 h2 h2 <;> simp_all [Prod.ext_iff] <;> omega

/-! ## The claims -/

/-- C5.  The claim says routing with fewer than 2 diamonds must fail
loudly.  It does not: `draw_trails` returns silently (before even
checking for the lattice); here with one diamond and a present grid. -/
theorem C5_counterexample :
    draw_trails sqOne routerInit (some gridA) [(10, 20)] 3 4 8 ambA =
      .ok ((routerInit, []), ambA) := by
  simp only [draw_trails]
  norm_num

/-- C5 (corrected).  Fewer than 2 diamonds is a silent no-op, checked
BEFORE the lattice wiring; with at least 2 diamonds and no associated
lattice, the call fails loudly with the `RuntimeError` message. -/
theorem C5_precondition_behavior :
    (∀ (sqrtF : ℚ → ℚ) (router : RouterState) (gridOpt : Option HexGrid)
       (centers : List Pt) (radius : ℚ) (mt fuel : ℕ) (g : RngState),
       centers.length < 2 →
       draw_trails sqrtF router gridOpt centers radius mt fuel g = .ok ((router, []), g)) ∧
    (∀ (sqrtF : ℚ → ℚ) (router : RouterState) (centers : List Pt) (radius : ℚ)
       (mt fuel : ℕ) (g : RngState),
       2 ≤ centers.length →
       draw_trails sqrtF router none centers radius mt fuel g =
         .error "TrailRouter.draw_trails requires renderer to set _grid_ref to HexGrid") := by
  constructor
  · intro sqrtF router gridOpt centers radius mt fuel g h
    rw [draw_trails.eq_def, if_pos h]
  · intro sqrtF router centers radius mt fuel g h
    rw [draw_trails.eq_def, if_neg (by omega)]

/-- C5 witness: the two guard behaviors at concrete inputs. -/
theorem C5_witness :
    (([] : List Pt).length < 2 ∧
      draw_trails sqOne routerInit none [] 3 4 8 ambA = .ok ((routerInit, []), ambA)) ∧
    (2 ≤ centersA.length ∧
      draw_trails sqOne routerInit none centersA 3 4 8 ambA =
        .error "TrailRouter.draw_trails requires renderer to set _grid_ref to HexGrid") :=
  ⟨⟨by norm_num, C5_precondition_behavior.1 sqOne routerInit none [] 3 4 8 ambA (by norm_num)⟩,
   ⟨by rw [centersA_length], C5_precondition_behavior.2 sqOne routerInit centersA 3 4 8 ambA
      (by rw [centersA_length])⟩⟩

/-- C9.  The claim says a cell count below 2 (or a degenerate
rectangle) is rejected at construction.  It is not: the constructor
silently clamps the count to 2 and `draw_grid` succeeds on the
zero-area rectangle. -/
theorem C9_counterexample :
    hexGridInitCells 0 = 2 ∧ draw_grid cfgD = .ok { nodes := gridNodes cfgD } := by
  constructor
  · decide
  · rw [draw_grid, if_neg]
    norm_num [cellSize, gridR, pyInt, hexGridInitCells, cfgD]

/-- C9 (corrected).  Construction never rejects: `cells_across` is
clamped to at least 2 (never an error), and `draw_grid` succeeds for
every layout whose derived cell size is nonzero (a zero cell size is
the only failure, a division by zero, which no rectangle with positive
area produces). -/
theorem C9_construction_clamps :
    (∀ c : ℤ, hexGridInitCells c = max 2 c ∧ 2 ≤ hexGridInitCells c) ∧
    (∀ cfg : GridConfig, cellSize cfg ≠ 0 → draw_grid cfg = .ok { nodes := gridNodes cfg }) := by
  constructor
  · intro c
    exact ⟨rfl, le_max_left 2 c⟩
  · intro cfg h
    rw [draw_grid, if_neg h]

/-- C9 witness: the degenerate layout is accepted. -/
theorem C9_witness :
    cellSize cfgD ≠ 0 ∧ draw_grid cfgD = .ok { nodes := gridNodes cfgD } :=
  ⟨by norm_num [cellSize, gridR, pyInt, hexGridInitCells, cfgD],
   C9_construction_clamps.2 cfgD
     (by norm_num [cellSize, gridR, pyInt, hexGridInitCells, cfgD])⟩

/-- C6.  The claim says all three point-in-hexagon conditions carry the
1-pixel tolerance.  The point `(10.5, 0)` against the hexagon centered
at the origin with `R = 10` satisfies all three toleranced conditions,
yet the source test rejects it, because `px ≤ R` is checked without
tolerance. -/
theorem C6_counterexample :
    point_in_hex_spec 0 0 10 10.5 0 = true ∧ point_in_hex 0 0 10 10.5 0 = false := by
  constructor
  · norm_num [point_in_hex_spec, SQ3, abs_of_nonneg]
  · norm_num [point_in_hex, SQ3, abs_of_nonneg]

/-- C6 (corrected).  The source test returns true exactly when
`px ≤ R` (no tolerance), `py ≤ R·√3/2 + 1` and
`√3·px + py ≤ √3·R + 1` (1-pixel tolerance on the latter two). -/
theorem C6_point_in_hex_tolerances :
    ∀ cx cy R x y : ℚ,
      point_in_hex cx cy R x y = true ↔
        |x - cx| ≤ R ∧ |y - cy| ≤ R * SQ3 / 2 + 1 ∧
          SQ3 * |x - cx| + |y - cy| ≤ SQ3 * R + 1 := by
  intro cx cy R x y
  unfold point_in_hex
  by_cases h : |x - cx| > R ∨ |y - cy| > R * SQ3 / 2 + 1
  · rw [if_pos h]
    constructor
    · intro hf
      exact absurd hf (by simp)
    · rintro ⟨h1, h2, h3⟩
      rcases h with h | h <;> linarith
  · rw [if_neg h]
    push_neg at h
    simp only [decide_eq_true_eq]
    exact ⟨fun h3 => ⟨h.1, h.2, h3⟩, fun h3 => h3.2.2⟩

/-- C10.  The renderer captures the ambient generator state, seeds from
the chosen marks, and restores the captured state afterward (also when
routing raises, by the `finally`): the state observed after the block
equals the state before it, and the routing inside is driven only by
the stream seeded from `hash(tuple(chosen_marks)) & 0xFFFFFFFF`. -/
theorem C10_rng_state_restored :
    ∀ (hashF : List (ℤ × ℤ) → ℤ) (seedStream : ℤ → ℕ → ℚ) (sqrtF : ℚ → ℚ)
      (router : RouterState) (grid : HexGrid) (marks : List (ℤ × ℤ))
      (centers : List Pt) (radius : ℚ) (fuel : ℕ) (amb : RngState),
      (renderTrailBlock hashF seedStream sqrtF router grid marks centers radius fuel amb).2 = amb ∧
      (renderTrailBlock hashF seedStream sqrtF router grid marks centers radius fuel amb).1 =
        (draw_trails sqrtF router (some grid) centers radius 4 fuel
          { stream := seedStream (hashF marks % 4294967296), k := 0 }).map fun r => r.1 := by
  intro hashF seedStream sqrtF router grid marks centers radius fuel amb
  exact ⟨rfl, rfl⟩

/-- C4.  The claim ties the `+2.0` penalty to edges used by earlier
trails of the SAME pass.  After the fixture's first pass, the router
(which the renderer constructs once and reuses) still holds that pass's
edges; the first A* edge evaluation of the next pass, with no trail yet
routed in it, prices the unordered edge `(1,2)-(2,1)` at `3`, not below
`1.25`. -/
theorem C4_counterexample :
    routerOne.used_edges = edgesA ∧
    stepCost routerOne.used_edges ((1 : ℤ), (2 : ℤ)) ((2 : ℤ), (1 : ℤ)) 0 = 3 ∧
    ¬ stepCost routerOne.used_edges ((1 : ℤ), (2 : ℤ)) ((2 : ℤ), (1 : ℤ)) 0 < 1.25 := by
  refine ⟨by rw [routerOne_eq], ?_, ?_⟩ <;>
    · rw [routerOne_eq]
      norm_num [stepCost, pyUniformVal, edge_key, nodeLt, edgesA, Prod.ext_iff]

/-- C4 (corrected).  One A* edge evaluation costs `1.0`, plus exactly
`2.0` if and only if the unordered edge is in the router's accumulated
`used_edges` (which is never cleared, so it carries the corridor edges
of every previously routed trail since the router was constructed, not
only of the current pass), plus a uniform jitter in `[0, 0.25)`; every
cost lies in `[1, 3.25)` and an edge not in `used_edges` costs less
than `1.25`.  `draw_trails` only ever appends to `used_edges`. -/
theorem C4_edge_cost :
    (∀ (used : List (Node × Node)) (a b : Node) (r : ℚ), 0 ≤ r → r < 1 →
      stepCost used a b r = 1 + (if edge_key a b ∈ used then (2 : ℚ) else 0) + 1 / 4 * r ∧
      1 ≤ stepCost used a b r ∧ stepCost used a b r < 3.25 ∧
      (edge_key a b ∉ used → stepCost used a b r < 1.25) ∧
      edge_key a b = edge_key b a) ∧
    (∀ (sqrtF : ℚ → ℚ) (router : RouterState) (gridOpt : Option HexGrid)
       (centers : List Pt) (radius : ℚ) (mt fuel : ℕ) (g : RngState),
      ∃ extra, (drawTrailsRouter sqrtF router gridOpt centers radius mt fuel g).used_edges =
        router.used_edges ++ extra) := by
  constructor
  · intro used a b r h0 h1
    have hval : stepCost used a b r =
        1 + (if edge_key a b ∈ used then (2 : ℚ) else 0) + 1 / 4 * r := by
      unfold stepCost pyUniformVal
      split_ifs <;> ring
    refine ⟨hval, ?_, ?_, ?_, edge_key_comm a b⟩
    · rw [hval]; split_ifs <;> linarith
    · rw [hval]; split_ifs <;> [norm_num; norm_num] <;> linarith
    · intro hn; rw [hval, if_neg hn]; linarith
  · intro sqrtF router gridOpt centers radius mt fuel g
    unfold drawTrailsRouter
    rw [draw_trails.eq_def]
    split_ifs with h1
    · exact ⟨[], by simp⟩
    · cases gridOpt with
      | none => exact ⟨[], by simp⟩
      | some grid =>
        cases hmc : mapClosest grid centers with
        | none => exact ⟨[], by simp [hmc]⟩
        | some ax =>
          simp only [hmc]
          exact trailLoop_used_append sqrtF grid _ _ radius fuel _ _ router _ _ _

/-- C4 witness: a fresh edge at jitter draw `0`. -/
theorem C4_witness :
    (0 : ℚ) ≤ 0 ∧ (0 : ℚ) < 1 ∧
    (stepCost [] ((1 : ℤ), (2 : ℤ)) ((2 : ℤ), (1 : ℤ)) 0 =
        1 + (if edge_key ((1 : ℤ), (2 : ℤ)) ((2 : ℤ), (1 : ℤ)) ∈ ([] : List (Node × Node))
              then (2 : ℚ) else 0) + 1 / 4 * 0 ∧
      1 ≤ stepCost [] ((1 : ℤ), (2 : ℤ)) ((2 : ℤ), (1 : ℤ)) 0 ∧
      stepCost [] ((1 : ℤ), (2 : ℤ)) ((2 : ℤ), (1 : ℤ)) 0 < 3.25 ∧
      (edge_key ((1 : ℤ), (2 : ℤ)) ((2 : ℤ), (1 : ℤ)) ∉ ([] : List (Node × Node)) →
        stepCost [] ((1 : ℤ), (2 : ℤ)) ((2 : ℤ), (1 : ℤ)) 0 < 1.25) ∧
      edge_key ((1 : ℤ), (2 : ℤ)) ((2 : ℤ), (1 : ℤ)) =
        edge_key ((2 : ℤ), (1 : ℤ)) ((1 : ℤ), (2 : ℤ))) :=
  ⟨le_refl 0, by norm_num,
   C4_edge_cost.1 [] ((1 : ℤ), (2 : ℤ)) ((2 : ℤ), (1 : ℤ)) 0 (le_refl 0) (by norm_num)⟩

/-- C3.  Two render invocations with the same seed model, the same
marks, the same diamond centers, and the same ambient generator state:
the first pass records corridor edges `edgesA`; the second pass, run
through the renderer's SAME router (the renderer constructs one
`TrailRouter` and reuses it), appends `edgesB ≠ edgesA` — it routes
through `(2,2)` instead of `(2,1)` because of the corridor penalty — so
the two executions do not produce identical route cells. -/
theorem C3_counterexample :
    routerOne.used_edges = edgesA ∧
    (passRouter routerOne
        (renderTrailBlock hashZero streamZero sqOne routerOne gridA marksA centersA 3 8 ambA).1).used_edges =
      edgesA ++ edgesB ∧
    edgesB ≠ edgesA := by
  refine ⟨by rw [routerOne_eq], ?_, by decide⟩
  rw [render_pass_two]
  rfl

/-! ## Length and spacing lemmas for the router loop -/

lemma listSwap_length {α : Type} (l : List α) (i j : ℕ) :
    (listSwap l i j).length = l.length := by
  unfold listSwap
  rcases h1 : l.get? i with _ | a <;> rcases h2 : l.get? j with _ | b <;>
    simp [List.length_set]

lemma pyShuffleGo_length {α : Type} :
    ∀ (m : ℕ) (l : List α) (g : RngState), (pyShuffleGo m l g).1.length = l.length := by
  intro m
  induction m with
  | zero => intro l g; rfl
  | succ i ih =>
    intro l g
    rw [pyShuffleGo, ih, listSwap_length]

lemma pyShuffle_length {α : Type} (l : List α) (g : RngState) :
    (pyShuffle l g).1.length = l.length :=
  pyShuffleGo_length _ _ _

lemma mapClosest_length (grid : HexGrid) :
    ∀ (l : List Pt) (ns : List Node), mapClosest grid l = some ns → ns.length = l.length := by
  intro l
  induction l with
  | nil =>
    intro ns h
    simp only [mapClosest, Option.some.injEq] at h
    subst h
    rfl
  | cons p t ih =>
    intro ns h
    simp only [mapClosest] at h
    rcases hc : closest_node grid p.1 p.2 with _ | n <;> rw [hc] at h <;>
      rcases hm : mapClosest grid t with _ | ns2 <;> rw [hm] at h <;>
        simp only [reduceCtorEq] at h
    simp only [Option.some.injEq] at h
    subst h
    simp [ih ns2 hm]

lemma pyRandint_bounds (a b : ℤ) (g : RngState) (h : a ≤ b) :
    a ≤ (pyRandint a b g).1 ∧ (pyRandint a b g).1 ≤ b := by
  unfold pyRandint
  constructor <;> simp only [] <;> omega

lemma trailLoop_acc_length (sqrtF : ℚ → ℚ) (grid : HexGrid) (pts : List Node)
    (ab : List Node) (dr : ℚ) (fuel : ℕ) :
    ∀ (n i : ℕ) (router : RouterState) (acc : List Trail) (existing : List Pt) (g : RngState),
    (trailLoop sqrtF grid pts ab dr fuel i n router acc existing g).2.1.length ≤ acc.length + n := by
  intro n
  induction n with
  | zero =>
    intro i router acc existing g
    simp [trailLoop]
  | succ m ih =>
    intro i router acc existing g
    simp only [trailLoop]
    split_ifs <;>
      first
        | exact (ih _ _ _ _ _).trans (by omega)
        | exact (ih (i + 1) _ (acc ++ [_]) _ _).trans (by simp [List.length_append]; omega)

lemma dist2_comm (p q : Pt) : dist2 p q = dist2 q p := by
  unfold dist2; ring

/-- Accepting a trail through the spacing guard preserves the pairwise
spacing of the accepted list. -/
lemma sep_extend (acc : List Trail) (existing : List Pt) (style : String) (poly : List Pt)
    (he : existing = acc.flatMap (fun t => t.2)) (hp : acc.Pairwise sepTrails)
    (hok : passesGuard poly existing = true) :
    (acc ++ [(style, poly)]).Pairwise sepTrails := by
  unfold passesGuard at hok
  rw [List.pairwise_append]
  refine ⟨hp, List.pairwise_singleton _ _, ?_⟩
  intro u hu t ht
  simp only [List.mem_singleton] at ht
  subst ht
  intro p hpu q hqt
  have hpe : p ∈ existing := by
    rw [he]
    exact List.mem_flatMap.mpr ⟨u, hu, hpu⟩
  by_cases hex : existing = []
  · rw [hex] at hpe
    cases hpe
  · rw [if_neg hex] at hok
    unfold overlapOk at hok
    have h3 := List.all_eq_true.mp hok q hqt
    have h4 := List.all_eq_true.mp h3 p hpe
    simp only [decide_eq_true_eq, not_lt] at h4
    rw [dist2_comm] at h4
    exact h4

lemma trailLoop_pairwise (sqrtF : ℚ → ℚ) (grid : HexGrid) (pts : List Node)
    (ab : List Node) (dr : ℚ) (fuel : ℕ) :
    ∀ (n i : ℕ) (router : RouterState) (acc : List Trail) (existing : List Pt) (g : RngState),
    existing = acc.flatMap (fun t => t.2) → acc.Pairwise sepTrails →
    ((trailLoop sqrtF grid pts ab dr fuel i n router acc existing g).2.1).Pairwise sepTrails := by
  intro n
  induction n with
  | zero =>
    intro i router acc existing g he hp
    simpa [trailLoop] using hp
  | succ m ih =>
    intro i router acc existing g he hp
    simp only [trailLoop]
    split_ifs with h1 h2
    · exact ih _ _ _ _ _ he hp
    · refine ih _ _ _ _ _ ?_ (sep_extend acc existing _ _ he hp h2)
      rw [he]
      simp [List.flatMap_append]
    · exact ih _ _ _ _ _ he hp

/-- C2.  Within one pass, the accepted trails are pairwise spaced: every
sample point of a later-accepted trail is at squared distance at least
`NO_OVERLAP_DIST ** 2` (hence distance at least `NO_OVERLAP_DIST`) from
every sample point of every earlier-accepted trail; a violating
candidate is dropped whole by the guard, never partially kept. -/
theorem C2_no_overlap :
    ∀ (sqrtF : ℚ → ℚ) (router : RouterState) (gridOpt : Option HexGrid)
      (centers : List Pt) (radius : ℚ) (mt fuel : ℕ) (g : RngState),
      (drawTrailsAccepted sqrtF router gridOpt centers radius mt fuel g).Pairwise sepTrails := by
  intro sqrtF router gridOpt centers radius mt fuel g
  unfold drawTrailsAccepted
  rw [draw_trails.eq_def]
  split_ifs with h1
  · simp
  · cases gridOpt with
    | none => simp
    | some grid =>
      cases hmc : mapClosest grid centers with
      | none => simp [hmc]
      | some ax =>
        simp only [hmc]
        exact trailLoop_pairwise sqrtF grid _ _ radius fuel _ _ router [] [] _ rfl List.Pairwise.nil

/-- C3 (corrected).  For a fixed seed model and diamond set the trail
block is deterministic given the router state: its result does not
depend on the ambient generator state at all (any two ambient states
give equal results), and the accepted-trail count of every pass is at
most `min(max_trails, diamond_count - 1)`; with 5 diamonds and
`max_trails = 4` the count is at most 4.  What the claim misses is
that the renderer reuses one router across passes, whose accumulated
`used_edges` can change the routes of a repeated same-seed pass
(see the counterexample). -/
theorem C3_determinism_and_count :
    (∀ (hashF : List (ℤ × ℤ) → ℤ) (seedStream : ℤ → ℕ → ℚ) (sqrtF : ℚ → ℚ)
       (router : RouterState) (grid : HexGrid) (marks : List (ℤ × ℤ))
       (centers : List Pt) (radius : ℚ) (fuel : ℕ) (amb1 amb2 : RngState),
       (renderTrailBlock hashF seedStream sqrtF router grid marks centers radius fuel amb1).1 =
       (renderTrailBlock hashF seedStream sqrtF router grid marks centers radius fuel amb2).1) ∧
    (∀ (sqrtF : ℚ → ℚ) (router : RouterState) (gridOpt : Option HexGrid)
       (centers : List Pt) (radius : ℚ) (mt fuel : ℕ) (g : RngState),
       (drawTrailsAccepted sqrtF router gridOpt centers radius mt fuel g).length ≤
         min mt (centers.length - 1)) := by
  constructor
  · intro hashF seedStream sqrtF router grid marks centers radius fuel amb1 amb2
    rfl
  · intro sqrtF router gridOpt centers radius mt fuel g
    unfold drawTrailsAccepted
    rw [draw_trails.eq_def]
    split_ifs with h1
    · simp
    · cases gridOpt with
      | none => simp
      | some grid =>
        cases hmc : mapClosest grid centers with
        | none => simp [hmc]
        | some ax =>
          simp only [hmc]
          have hlen : (pyShuffle ax g).1.length = centers.length := by
            rw [pyShuffle_length]
            exact mapClosest_length grid centers ax hmc
          refine le_trans
            (trailLoop_acc_length sqrtF grid _ _ radius fuel _ 0 router [] [] _) ?_
          simp only [List.length_nil, Nat.zero_add]
          split_ifs with h2 h3
          · have hb := pyRandint_bounds 2
              ((min mt ((pyShuffle ax g).1.length - 1) : ℕ) : ℤ) (pyShuffle ax g).2 (by omega)
            omega
          · omega
          · omega


lemma chaikinStep_head (l : List Pt) : (chaikinStep l).head? = l.head? := by
  cases l <;> simp [chaikinStep]

lemma chaikinStep_getLast (l : List Pt) : (chaikinStep l).getLast? = l.getLast? := by
  cases l with
  | nil => simp [chaikinStep]
  | cons x xs =>
    show ((x :: chaikinPairs (x :: xs)) ++ [(x :: xs).getLast (by simp)]).getLast? = _
    rw [List.getLast?_concat]
    exact (List.getLast?_eq_getLast (x :: xs) (by simp)).symm

/-- C8.  Chaikin smoothing with 2 iterations preserves the first and
last points of every polyline of length at least 2, and returns every
polyline of fewer than 3 points unchanged. -/
theorem C8_chaikin_endpoints :
    (∀ pts : List Pt, 2 ≤ pts.length →
       (chaikin pts 2).head? = pts.head? ∧ (chaikin pts 2).getLast? = pts.getLast?) ∧
    (∀ pts : List Pt, pts.length < 3 → chaikin pts 2 = pts) := by
  constructor
  · intro pts h2
    unfold chaikin
    by_cases h3 : pts.length < 3
    · rw [if_pos h3]
      exact ⟨rfl, rfl⟩
    · rw [if_neg h3]
      rw [show chaikinStep^[2] pts = chaikinStep (chaikinStep pts) by
        rw [Function.iterate_succ_apply', Function.iterate_succ_apply',
          Function.iterate_zero_apply]]
      rw [chaikinStep_head, chaikinStep_head, chaikinStep_getLast, chaikinStep_getLast]
      exact ⟨rfl, rfl⟩
  · intro pts h3
    unfold chaikin
    rw [if_pos h3]

/-- C8 witness: a two-point and a one-point polyline. -/
theorem C8_witness :
    (2 ≤ ([((10 : ℚ), (20 : ℚ)), ((30 : ℚ), (10 : ℚ))] : List Pt).length ∧
      (chaikin [((10 : ℚ), (20 : ℚ)), ((30 : ℚ), (10 : ℚ))] 2).head? =
        ([((10 : ℚ), (20 : ℚ)), ((30 : ℚ), (10 : ℚ))] : List Pt).head? ∧
      (chaikin [((10 : ℚ), (20 : ℚ)), ((30 : ℚ), (10 : ℚ))] 2).getLast? =
        ([((10 : ℚ), (20 : ℚ)), ((30 : ℚ), (10 : ℚ))] : List Pt).getLast?) ∧
    (([((5 : ℚ), (5 : ℚ))] : List Pt).length < 3 ∧
      chaikin [((5 : ℚ), (5 : ℚ))] 2 = [((5 : ℚ), (5 : ℚ))]) :=
  ⟨⟨by norm_num, C8_chaikin_endpoints.1 _ (by norm_num)⟩,
   ⟨by norm_num, C8_chaikin_endpoints.2 _ (by norm_num)⟩⟩


/-! ## Lattice membership and key uniqueness -/

lemma mem_rangeInt (lo hi x : ℤ) : x ∈ rangeInt lo hi ↔ lo ≤ x ∧ x ≤ hi := by
  unfold rangeInt
  simp only [List.mem_map, List.mem_range]
  constructor
  · rintro ⟨i, hi2, rfl⟩
    omega
  · rintro ⟨h1, h2⟩
    exact ⟨(x - lo).toNat, by omega, by omega⟩

lemma mem_allCenters (c : GridConfig) (p : Node) :
    p ∈ allCenters c ↔
      (-(qMax c) ≤ p.1 ∧ p.1 ≤ qMax c) ∧ (-(rMax c) ≤ p.2 ∧ p.2 ≤ rMax c) := by
  unfold allCenters
  simp only [List.mem_flatMap, List.mem_map, mem_rangeInt]
  constructor
  · rintro ⟨q, hq, r, hr, rfl⟩
    exact ⟨hq, hr⟩
  · rintro ⟨hq, hr⟩
    exact ⟨p.1, hq, p.2, hr, rfl⟩

lemma mem_gridNodes (c : GridConfig) (nd : HexNode) :
    nd ∈ gridNodes c ↔
      ((-(qMax c) ≤ nd.q ∧ nd.q ≤ qMax c) ∧ (-(rMax c) ≤ nd.r ∧ nd.r ≤ rMax c)) ∧
      keepCell c nd.q nd.r = true ∧
      nd.x = pyInt (axialX c nd.q) ∧ nd.y = pyInt (axialY c nd.q nd.r) := by
  unfold gridNodes
  simp only [List.mem_map, List.mem_filter, mem_allCenters]
  constructor
  · rintro ⟨p, ⟨hw, hk⟩, rfl⟩
    exact ⟨hw, hk, rfl, rfl⟩
  · rintro ⟨hw, hk, hx, hy⟩
    refine ⟨(nd.q, nd.r), ⟨hw, hk⟩, ?_⟩
    cases nd
    simp_all

lemma rangeInt_nodup (lo hi : ℤ) : (rangeInt lo hi).Nodup := by
  unfold rangeInt
  refine List.Nodup.map (fun a b h => by simpa using h) (List.nodup_range _)

lemma nodup_pairs (qs rs : List ℤ) (hq : qs.Nodup) (hr : rs.Nodup) :
    (qs.flatMap fun q => rs.map fun r => ((q, r) : Node)).Nodup := by
  induction qs with
  | nil => simp
  | cons a t ih =>
    rw [List.flatMap_cons]
    rcases List.nodup_cons.mp hq with ⟨ha, ht⟩
    refine List.Nodup.append (hr.map fun r1 r2 h => ?_) (ih ht) ?_
    · simpa using congrArg Prod.snd h
    · intro p hp1 hp2
      simp only [List.mem_map] at hp1
      simp only [List.mem_flatMap, List.mem_map] at hp2
      obtain ⟨r1, _, rfl⟩ := hp1
      obtain ⟨q2, hq2, r2, _, heq⟩ := hp2
      have : q2 = a := by simpa using congrArg Prod.fst heq
      exact ha (this ▸ hq2)

lemma allCenters_nodup (c : GridConfig) : (allCenters c).Nodup :=
  nodup_pairs _ _ (rangeInt_nodup _ _) (rangeInt_nodup _ _)

lemma gridNodes_keys_nodup (c : GridConfig) :
    ((gridNodes c).map fun nd => (nd.q, nd.r)).Nodup := by
  unfold gridNodes
  rw [List.map_map]
  have hcomp : ((fun nd : HexNode => (nd.q, nd.r)) ∘ fun p : Node =>
      ({ q := p.1, r := p.2, x := pyInt (axialX c p.1),
         y := pyInt (axialY c p.1 p.2) } : HexNode)) = id := by
    funext p
    rfl
  rw [hcomp, List.map_id]
  exact (allCenters_nodup c).filter _

/-! ## Evaluation of the fine layout -/

lemma gridR_cfgB : gridR cfgB = 94 := by
  norm_num [gridR, pyInt, cfgB]

lemma cellSize_cfgB : cellSize cfgB = 9259 / 18775 := by
  unfold cellSize
  rw [gridR_cfgB]
  norm_num [hexGridInitCells, cfgB]

lemma gridCx_cfgB : gridCx cfgB = 100 := by decide

lemma gridCy_cfgB : gridCy cfgB = 100 := by decide

lemma qMax_cfgB : qMax cfgB = 130 := by
  unfold qMax
  rw [gridR_cfgB, cellSize_cfgB]
  norm_num [pyInt]

lemma rMax_cfgB : rMax cfgB = 113 := by
  unfold rMax
  rw [gridR_cfgB, cellSize_cfgB]
  norm_num [pyInt, SQ3]

lemma keep00_cfgB : keepCell cfgB 0 0 = true := by
  unfold keepCell axialX axialY
  rw [gridR_cfgB, cellSize_cfgB, gridCx_cfgB, gridCy_cfgB]
  norm_num [point_in_hex, SQ3, abs_of_nonneg, abs_of_nonpos]

lemma keep01_cfgB : keepCell cfgB 0 1 = true := by
  unfold keepCell axialX axialY
  rw [gridR_cfgB, cellSize_cfgB, gridCx_cfgB, gridCy_cfgB]
  norm_num [point_in_hex, SQ3, abs_of_nonneg, abs_of_nonpos]

lemma node00_mem : (⟨0, 0, 100, 100⟩ : HexNode) ∈ gridNodes cfgB := by
  rw [mem_gridNodes]
  refine ⟨⟨?_, ?_⟩, keep00_cfgB, ?_, ?_⟩ <;>
    · simp only [axialX, axialY, qMax_cfgB, rMax_cfgB, cellSize_cfgB, gridCx_cfgB, gridCy_cfgB]
      norm_num [pyInt, SQ3]

lemma node01_mem : (⟨0, 1, 100, 100⟩ : HexNode) ∈ gridNodes cfgB := by
  rw [mem_gridNodes]
  refine ⟨⟨?_, ?_⟩, keep01_cfgB, ?_, ?_⟩ <;>
    · simp only [axialX, axialY, qMax_cfgB, rMax_cfgB, cellSize_cfgB, gridCx_cfgB, gridCy_cfgB]
      norm_num [pyInt, SQ3]

/-- C7.  Stored pixel positions are the integer truncations of the
axial-to-pixel formula, not the formula values themselves, and two
distinct retained cells can share a stored position: in a 200 by 200
box with 250 requested cells across, the retained cells (0,0) and
(0,1) both store pixel position (100, 100), while the formula value of
the y-coordinate at (0,1) is not 100 (it is 100 plus one sub-pixel
cell spacing). -/
theorem C7_counterexample :
    (⟨0, 0, 100, 100⟩ : HexNode) ∈ gridNodes cfgB ∧
    (⟨0, 1, 100, 100⟩ : HexNode) ∈ gridNodes cfgB ∧
    ((0 : ℤ), (0 : ℤ)) ≠ ((0 : ℤ), (1 : ℤ)) ∧
    axialY cfgB 0 1 ≠ ((100 : ℤ) : ℚ) := by
  refine ⟨node00_mem, node01_mem, by decide, ?_⟩
  unfold axialY
  rw [cellSize_cfgB, gridCy_cfgB]
  norm_num [SQ3]

/-- C7 (corrected).  For every layout, every retained cell stores the
truncation toward zero of the axial-to-pixel formula at its (q, r),
and no two retained cells have equal (q, r); stored pixel positions
need not be distinct once the cell spacing drops below one pixel. -/
theorem C7_position_consistency :
    ∀ c : GridConfig,
      (∀ nd ∈ gridNodes c,
        nd.x = pyInt (axialX c nd.q) ∧ nd.y = pyInt (axialY c nd.q nd.r)) ∧
      ((gridNodes c).map fun nd => (nd.q, nd.r)).Nodup := by
  intro c
  exact ⟨fun nd hnd => ((mem_gridNodes c nd).mp hnd).2.2, gridNodes_keys_nodup c⟩

/-- C7 witness: the retained cell (0,0) of the fine layout. -/
theorem C7_witness :
    (⟨0, 0, 100, 100⟩ : HexNode) ∈ gridNodes cfgB ∧
    ((⟨0, 0, 100, 100⟩ : HexNode).x = pyInt (axialX cfgB (⟨0, 0, 100, 100⟩ : HexNode).q) ∧
     (⟨0, 0, 100, 100⟩ : HexNode).y =
       pyInt (axialY cfgB (⟨0, 0, 100, 100⟩ : HexNode).q (⟨0, 0, 100, 100⟩ : HexNode).r)) :=
  ⟨node00_mem, (C7_position_consistency cfgB).1 _ node00_mem⟩


/-! ## A* path validity -/

lemma alookup_cons {β : Type} (a : Node) (b : β) (t : List (Node × β)) (k : Node) :
    alookup ((a, b) :: t) k = if k = a then some b else alookup t k := rfl

lemma alookup_mem {β : Type} :
    ∀ (l : List (Node × β)) (k : Node) (v : β), alookup l k = some v → (k, v) ∈ l := by
  intro l
  induction l with
  | nil => intro k v h; cases h
  | cons e t ih =>
    intro k v h
    obtain ⟨a, b⟩ := e
    rw [alookup_cons] at h
    split_ifs at h with hk
    · cases h
      subst hk
      exact List.mem_cons_self _ _
    · exact List.mem_cons_of_mem _ (ih k v h)

lemma alookup_isSome_cons {β : Type} (a : Node) (b : β) (t : List (Node × β)) (k : Node)
    (h : (alookup t k).isSome) : (alookup ((a, b) :: t) k).isSome := by
  rw [alookup_cons]
  split_ifs <;> simp_all

lemma gval_eq (g : List (Node × ℚ)) (n : Node) (v : ℚ) (h : alookup g n = some v) :
    gval g n = v := by
  unfold gval
  rw [h]
  rfl

lemma stepCost_pos (used : List (Node × Node)) (a b : Node) (r : ℚ) (h : 0 ≤ r) :
    0 < stepCost used a b r := by
  unfold stepCost pyUniformVal
  split_ifs <;> nlinarith

lemma mem_neighbors_ne (grid : HexGrid) (q r : ℤ) (n : Node)
    (h : n ∈ grid.neighbors q r) : n ≠ (q, r) := by
  unfold HexGrid.neighbors at h
  simp only [List.mem_filterMap] at h
  obtain ⟨d, hd, hn⟩ := h
  split_ifs at hn with hc
  replace hn := Option.some.inj hn
  subst hn
  unfold AXIAL_DIRS at hd
  fin_cases hd <;> (intro he; rw [Prod.ext_iff] at he; omega)

lemma popMin_mem :
    ∀ (l : List (ℚ × Node)) (e : ℚ × Node) (r : List (ℚ × Node)),
      popMin l = some (e, r) → e ∈ l := by
  intro l
  induction l with
  | nil => intro e r h; cases h
  | cons a t ih =>
    intro e r h
    cases hm : popMin t with
    | none =>
      simp only [popMin, hm] at h
      cases h
      exact List.mem_cons_self _ _
    | some mr =>
      obtain ⟨m, r1⟩ := mr
      simp only [popMin, hm] at h
      split_ifs at h with hle
      · have he : e = a := by
          simpa using (congrArg Prod.fst (Option.some.inj h)).symm
        subst he
        exact List.mem_cons_self _ _
      · have he : e = m := by
          simpa using (congrArg Prod.fst (Option.some.inj h)).symm
        subst he
        exact List.mem_cons_of_mem _ (ih e r1 hm)

lemma popMin_rest_mem :
    ∀ (l : List (ℚ × Node)) (e : ℚ × Node) (r : List (ℚ × Node)),
      popMin l = some (e, r) → ∀ x ∈ r, x ∈ l := by
  intro l
  induction l with
  | nil => intro e r h; cases h
  | cons a t ih =>
    intro e r h x hx
    cases hm : popMin t with
    | none =>
      simp only [popMin, hm] at h
      cases h
      cases hx
    | some mr =>
      obtain ⟨m, r1⟩ := mr
      simp only [popMin, hm] at h
      split_ifs at h with hle
      · have hr : r = m :: r1 := by
          simpa using (congrArg Prod.snd (Option.some.inj h)).symm
        subst hr
        rcases List.mem_cons.mp hx with rfl | hx2
        · exact List.mem_cons_of_mem _ (popMin_mem t _ _ hm)
        · exact List.mem_cons_of_mem _ (ih _ _ hm x hx2)
      · have hr : r = a :: r1 := by
          simpa using (congrArg Prod.snd (Option.some.inj h)).symm
        subst hr
        rcases List.mem_cons.mp hx with rfl | hx2
        · exact List.mem_cons_self _ _
        · exact List.mem_cons_of_mem _ (ih _ _ hm x hx2)

lemma AstarInv.came_start {grid : HexGrid} {blocked : List Node} {start : Node}
    {st : AstarState} (hinv : AstarInv grid blocked start st) :
    alookup st.came start = none := by
  cases hcs : alookup st.came start with
  | none => rfl
  | some p =>
    obtain ⟨gp, gn, hgp, hgn, hlt⟩ := hinv.came_g _ _ hcs
    rw [hinv.g_start] at hgn
    cases hgn
    exact absurd hlt (not_lt.mpr (hinv.g_nonneg _ _ hgp))

lemma length_filter_mono {α : Type} (l : List α) (P Q : α → Bool)
    (hPQ : ∀ a, P a = true → Q a = true) :
    (l.filter P).length ≤ (l.filter Q).length := by
  induction l with
  | nil => simp
  | cons a t ih =>
    by_cases hP : P a = true
    · rw [List.filter_cons_of_pos hP, List.filter_cons_of_pos (hPQ a hP)]
      simpa using ih
    · rw [List.filter_cons_of_neg (by simp_all)]
      by_cases hQ : Q a = true
      · rw [List.filter_cons_of_pos hQ]
        exact ih.trans (by simp)
      · rw [List.filter_cons_of_neg (by simp_all)]
        exact ih

lemma length_filter_lt {α : Type} (l : List α) (P Q : α → Bool) (x : α) (hx : x ∈ l)
    (hPQ : ∀ a, P a = true → Q a = true) (hPx : ¬ P x = true) (hQx : Q x = true) :
    (l.filter P).length < (l.filter Q).length := by
  induction l with
  | nil => cases hx
  | cons a t ih =>
    rcases List.mem_cons.mp hx with rfl | hx2
    · rw [List.filter_cons_of_neg (by simp_all), List.filter_cons_of_pos hQx,
        List.length_cons]
      exact Nat.lt_succ_of_le (length_filter_mono t P Q hPQ)
    · by_cases hP : P a = true
      · rw [List.filter_cons_of_pos hP, List.filter_cons_of_pos (hPQ a hP),
          List.length_cons, List.length_cons]
        exact Nat.succ_lt_succ (ih hx2)
      · rw [List.filter_cons_of_neg (by simp_all)]
        by_cases hQ : Q a = true
        · rw [List.filter_cons_of_pos hQ, List.length_cons]
          exact lt_of_lt_of_le (ih hx2) (Nat.le_succ _)
        · rw [List.filter_cons_of_neg (by simp_all)]
          exact ih hx2


lemma expandNbr_inv (grid : HexGrid) (blocked : List Node) (start : Node)
    (used : List (Node × Node)) (goal : Node) (cur : Node) (st : AstarState) (nbr : Node)
    (hinv : AstarInv grid blocked start st)
    (hnbr : nbr ∈ grid.neighbors cur.1 cur.2)
    (hcurg : (alookup st.g cur).isSome)
    (hcurc : cur = start ∨ (alookup st.came cur).isSome)
    (hs : ∀ i, 0 ≤ st.rng.stream i) :
    AstarInv grid blocked start (expandNbr used goal blocked cur st nbr) ∧
    (alookup (expandNbr used goal blocked cur st nbr).g cur).isSome ∧
    (cur = start ∨ (alookup (expandNbr used goal blocked cur st nbr).came cur).isSome) ∧
    (expandNbr used goal blocked cur st nbr).rng.stream = st.rng.stream := by
  obtain ⟨gcv, hgcv⟩ := Option.isSome_iff_exists.mp hcurg
  have hgc0 : 0 ≤ gcv := hinv.g_nonneg _ _ hgcv
  have hstep : 0 < stepCost used cur nbr (nextRand st.rng).1 :=
    stepCost_pos used cur nbr _ (hs st.rng.k)
  have hnbr_ne_cur : nbr ≠ cur := by
    have h := mem_neighbors_ne grid cur.1 cur.2 nbr hnbr
    simpa using h
  simp only [expandNbr]
  split_ifs with hb hlt
  · exact ⟨hinv, hcurg, hcurc, rfl⟩
  · -- accepted update
    have hngv : (alookup st.g cur).getD 0 + stepCost used cur nbr (nextRand st.rng).1 =
        gcv + stepCost used cur nbr (nextRand st.rng).1 := by
      rw [hgcv]; rfl
    have hng_pos : 0 < (alookup st.g cur).getD 0 + stepCost used cur nbr (nextRand st.rng).1 := by
      rw [hngv]; linarith
    have hnbr_ne_start : nbr ≠ start := by
      intro he
      subst he
      rw [hinv.g_start] at hlt
      simp only [Option.getD_some] at hlt
      linarith
    refine ⟨⟨?_, ?_, ?_, ?_, ?_, ?_, ?_, ?_⟩, ?_, ?_, rfl⟩
    · intro e he
      rcases List.mem_cons.mp he with rfl | he2
      · rw [alookup_cons, if_pos rfl]; rfl
      · exact alookup_isSome_cons _ _ _ _ (hinv.open_g e he2)
    · intro e he
      rcases List.mem_cons.mp he with rfl | he2
      · right; rw [alookup_cons, if_pos rfl]; rfl
      · rcases hinv.open_came e he2 with h1 | h1
        · exact Or.inl h1
        · exact Or.inr (alookup_isSome_cons _ _ _ _ h1)
    · rw [alookup_cons, if_neg (fun he => hnbr_ne_start he.symm)]
      exact hinv.g_start
    · intro n v h
      rw [alookup_cons] at h
      split_ifs at h with hn
      · cases h; exact le_of_lt hng_pos
      · exact hinv.g_nonneg n v h
    · intro n p h
      rw [alookup_cons] at h
      split_ifs at h with hn
      · cases h; subst hn; exact hnbr
      · exact hinv.came_adj n p h
    · intro n p h
      rw [alookup_cons] at h
      split_ifs at h with hn
      · cases h; subst hn; exact hb
      · exact hinv.came_blocked n p h
    · intro n p h
      rw [alookup_cons] at h
      split_ifs at h with hn
      · cases h
        rcases hcurc with h1 | h1
        · exact Or.inl h1
        · exact Or.inr (alookup_isSome_cons _ _ _ _ h1)
      · rcases hinv.came_closed n p h with h1 | h1
        · exact Or.inl h1
        · exact Or.inr (alookup_isSome_cons _ _ _ _ h1)
    · intro n p h
      rw [alookup_cons] at h
      split_ifs at h with hn
      · cases h
        refine ⟨gcv, (alookup st.g cur).getD 0 + stepCost used cur nbr (nextRand st.rng).1,
          ?_, ?_, ?_⟩
        · rw [alookup_cons, if_neg (fun he => hnbr_ne_cur he.symm)]
          exact hgcv
        · rw [alookup_cons]
          subst hn
          rw [if_pos rfl]
        · rw [hngv]; linarith
      · obtain ⟨gp, gn, hgp, hgn, hlt2⟩ := hinv.came_g n p h
        by_cases hpn : p = nbr
        · refine ⟨(alookup st.g cur).getD 0 + stepCost used cur nbr (nextRand st.rng).1, gn,
            ?_, ?_, ?_⟩
          · rw [alookup_cons, if_pos hpn]
          · rw [alookup_cons, if_neg hn]; exact hgn
          · subst hpn
            rw [hgp] at hlt
            simp only [Option.getD_some] at hlt
            linarith
        · exact ⟨gp, gn, by rw [alookup_cons, if_neg hpn]; exact hgp,
            by rw [alookup_cons, if_neg hn]; exact hgn, hlt2⟩
    · rw [alookup_cons, if_neg (fun he => hnbr_ne_cur he.symm)]
      exact hcurg
    · rcases hcurc with h1 | h1
      · exact Or.inl h1
      · exact Or.inr (alookup_isSome_cons _ _ _ _ h1)
  · exact ⟨⟨hinv.open_g, hinv.open_came, hinv.g_start, hinv.g_nonneg, hinv.came_adj,
      hinv.came_blocked, hinv.came_closed, hinv.came_g⟩, hcurg, hcurc, rfl⟩

lemma foldExpand_inv (grid : HexGrid) (blocked : List Node) (start : Node)
    (used : List (Node × Node)) (goal : Node) (cur : Node) :
    ∀ (ns : List Node) (st : AstarState),
      (∀ n ∈ ns, n ∈ grid.neighbors cur.1 cur.2) →
      AstarInv grid blocked start st →
      (alookup st.g cur).isSome →
      (cur = start ∨ (alookup st.came cur).isSome) →
      (∀ i, 0 ≤ st.rng.stream i) →
      AstarInv grid blocked start (ns.foldl (expandNbr used goal blocked cur) st) ∧
      (ns.foldl (expandNbr used goal blocked cur) st).rng.stream = st.rng.stream := by
  intro ns
  induction ns with
  | nil => intro st _ hinv _ _ _; exact ⟨hinv, rfl⟩
  | cons n t ih =>
    intro st hns hinv hcurg hcurc hs
    rw [List.foldl_cons]
    obtain ⟨hinv1, hg1, hc1, hst1⟩ :=
      expandNbr_inv grid blocked start used goal cur st n hinv
        (hns n (List.mem_cons_self _ _)) hcurg hcurc hs
    obtain ⟨hinv2, hst2⟩ := ih (expandNbr used goal blocked cur st n)
      (fun m hm => hns m (List.mem_cons_of_mem _ hm)) hinv1 hg1 hc1 (hst1 ▸ hs)
    exact ⟨hinv2, hst2.trans hst1⟩


lemma reconstruct_spec (grid : HexGrid) (blocked : List Node) (start : Node)
    (st : AstarState) (hinv : AstarInv grid blocked start st) :
    ∀ (fuel : ℕ) (n : Node),
      (st.came.filter fun e => decide (gval st.g e.1 ≤ gval st.g n)).length < fuel →
      (n = start ∨ (alookup st.came n).isSome) →
      (reconstruct st.came n fuel).head? = some n ∧
      (reconstruct st.came n fuel).getLast? = some start ∧
      List.Chain' (fun a b => alookup st.came a = some b) (reconstruct st.came n fuel) ∧
      ∀ c ∈ reconstruct st.came n fuel, c = start ∨ c ∉ blocked := by
  intro fuel
  induction fuel with
  | zero => intro n hm _; omega
  | succ fuel ih =>
    intro n hm hn
    cases hc : alookup st.came n with
    | none =>
      have hns : n = start := by
        rcases hn with h1 | h1
        · exact h1
        · rw [hc] at h1; cases h1
      simp only [reconstruct, hc]
      subst hns
      refine ⟨rfl, rfl, List.chain'_singleton _, ?_⟩
      intro c hcm
      rcases List.mem_singleton.mp hcm with rfl
      exact Or.inl rfl
    | some prev =>
      obtain ⟨gp, gn, hgp, hgn, hglt⟩ := hinv.came_g n prev hc
      have hgvn : gval st.g n = gn := gval_eq _ _ _ hgn
      have hgvp : gval st.g prev = gp := gval_eq _ _ _ hgp
      have hmem : (n, prev) ∈ st.came := alookup_mem _ _ _ hc
      have hdec : (st.came.filter fun e => decide (gval st.g e.1 ≤ gval st.g prev)).length <
          (st.came.filter fun e => decide (gval st.g e.1 ≤ gval st.g n)).length := by
        refine length_filter_lt st.came _ _ (n, prev) hmem ?_ ?_ ?_
        · intro a ha
          simp only [decide_eq_true_eq] at ha ⊢
          rw [hgvn]
          rw [hgvp] at ha
          linarith
        · simp only [decide_eq_true_eq, not_le]
          rw [hgvn, hgvp]
          exact hglt
        · simp only [decide_eq_true_eq]
          exact le_refl _
      have hprev : prev = start ∨ (alookup st.came prev).isSome :=
        hinv.came_closed n prev hc
      obtain ⟨ihd, ilst, ichain, imem⟩ := ih prev (by omega) hprev
      simp only [reconstruct, hc]
      refine ⟨rfl, ?_, ?_, ?_⟩
      · cases hr : reconstruct st.came prev fuel with
        | nil => rw [hr] at ihd; cases ihd
        | cons x t =>
          rw [List.getLast?_cons_cons]
          rw [hr] at ilst
          exact ilst
      · refine List.chain'_cons'.mpr ⟨?_, ichain⟩
        intro b hb
        rw [ihd] at hb
        simp only [Option.mem_def, Option.some.injEq] at hb
        subst hb
        exact hc
      · intro c hcm
        rcases List.mem_cons.mp hcm with rfl | hcm2
        · exact Or.inr (hinv.came_blocked c prev hc)
        · exact imem c hcm2


lemma astarLoop_valid (grid : HexGrid) (goal : Node) (blocked : List Node)
    (used : List (Node × Node)) (start : Node) :
    ∀ (fuel : ℕ) (st : AstarState),
      AstarInv grid blocked start st →
      (∀ i, 0 ≤ st.rng.stream i) →
      ∀ (path : List Node) (rng1 : RngState),
        astarLoop grid goal blocked used fuel st = (path, rng1) →
        path ≠ [] →
        path.head? = some start ∧ path.getLast? = some goal ∧
        List.Chain' (fun u w => w ∈ grid.neighbors u.1 u.2) path ∧
        ∀ c ∈ path, c = start ∨ c = goal ∨ c ∉ blocked := by
  intro fuel
  induction fuel with
  | zero =>
    intro st _ _ path rng1 h hne
    simp only [astarLoop] at h
    exact absurd (congrArg Prod.fst h).symm hne
  | succ fuel ih =>
    intro st hinv hs path rng1 h hne
    cases hp : popMin st.openq with
    | none =>
      simp only [astarLoop, hp] at h
      exact absurd (congrArg Prod.fst h).symm hne
    | some er =>
      obtain ⟨e, rest⟩ := er
      obtain ⟨f, cur⟩ := e
      have hemem : (f, cur) ∈ st.openq := popMin_mem _ _ _ hp
      simp only [astarLoop, hp] at h
      split_ifs at h with hg
      · -- goal reached: reconstruct
        subst hg
        have hcc : cur = start ∨ (alookup st.came cur).isSome :=
          hinv.open_came (f, cur) hemem
        have hfl : (st.came.filter fun e =>
            decide (gval st.g e.1 ≤ gval st.g cur)).length < st.came.length + 1 :=
          Nat.lt_succ_of_le (List.length_filter_le _ _)
        obtain ⟨rhd, rlst, rchain, rmem⟩ :=
          reconstruct_spec grid blocked start st hinv (st.came.length + 1) cur hfl hcc
        have hpath : path = (reconstruct st.came cur (st.came.length + 1)).reverse :=
          (congrArg Prod.fst h).symm
        subst hpath
        refine ⟨?_, ?_, ?_, ?_⟩
        · rw [List.head?_reverse]
          exact rlst
        · rw [List.getLast?_reverse]
          exact rhd
        · rw [List.chain'_reverse]
          refine List.Chain'.imp ?_ rchain
          intro a b hab
          exact hinv.came_adj a b hab
        · intro c hcm
          rw [List.mem_reverse] at hcm
          rcases rmem c hcm with h1 | h1
          · exact Or.inl h1
          · exact Or.inr (Or.inr h1)
      · -- expand cur and recurse
        have hrest : AstarInv grid blocked start { st with openq := rest } := by
          refine ⟨?_, ?_, hinv.g_start, hinv.g_nonneg, hinv.came_adj,
            hinv.came_blocked, hinv.came_closed, hinv.came_g⟩
          · intro e he
            exact hinv.open_g e (popMin_rest_mem _ _ _ hp e he)
          · intro e he
            exact hinv.open_came e (popMin_rest_mem _ _ _ hp e he)
        have hcg : (alookup ({ st with openq := rest } : AstarState).g cur).isSome :=
          hinv.open_g (f, cur) hemem
        have hcc : cur = start ∨
            (alookup ({ st with openq := rest } : AstarState).came cur).isSome :=
          hinv.open_came (f, cur) hemem
        obtain ⟨hinv1, hst1⟩ :=
          foldExpand_inv grid blocked start used goal cur
            (grid.neighbors cur.1 cur.2) { st with openq := rest }
            (fun n hn => hn) hrest hcg hcc hs
        exact ih _ hinv1 (hst1 ▸ hs) path rng1 h hne


/-- **C1**: every non-empty route returned by the A* routing function
(`TrailRouter._astar`, trails.py lines 54-90) starts at the requested
start cell, ends at the requested goal cell, steps only between
lattice-adjacent cells (`HexGrid.neighbors`, the 6 axial directions),
and contains no cell of the obstacle set other than the two requested
endpoints.  This holds for every grid, endpoint pair, obstacle set,
accumulated corridor-edge set, fuel and (nonnegative-stream) generator
state. -/
theorem C1_astar_path_valid (grid : HexGrid) (start goal : Node) (blocked : List Node)
    (used : List (Node × Node)) (fuel : ℕ) (rng : RngState)
    (path : List Node) (rng1 : RngState)
    (hs : ∀ i, 0 ≤ rng.stream i)
    (h : astar grid start goal blocked used fuel rng = (path, rng1))
    (hne : path ≠ []) :
    path.head? = some start ∧ path.getLast? = some goal ∧
    List.Chain' (fun u w => w ∈ grid.neighbors u.1 u.2) path ∧
    ∀ c ∈ path, c = start ∨ c = goal ∨ c ∉ blocked := by
  have hinv0 : AstarInv grid blocked start
      { openq := [(0, start)], came := [], g := [(start, 0)], rng := rng } := by
    refine ⟨?_, ?_, ?_, ?_, ?_, ?_, ?_, ?_⟩
    · intro e he
      rcases List.mem_singleton.mp he with rfl
      simp [alookup]
    · intro e he
      rcases List.mem_singleton.mp he with rfl
      exact Or.inl rfl
    · simp [alookup]
    · intro n v hv
      simp only [alookup] at hv
      split_ifs at hv
      · cases hv; exact le_refl 0
    · intro n p hp; cases hp
    · intro n p hp; cases hp
    · intro n p hp; cases hp
    · intro n p hp; cases hp
  exact astarLoop_valid grid goal blocked used start fuel _ hinv0 hs path rng1 h hne

/-- Witness for C1 at the concrete first-pass fixture run: the route
from `(3, 1)` to `(1, 2)` on `gridA` with no obstacles. -/
theorem C1_witness :
    (astar gridA (3, 1) (1, 2) [] [] 8 { stream := streamZero 0, k := 2 }).1.head? =
      some (3, 1) ∧
    (astar gridA (3, 1) (1, 2) [] [] 8 { stream := streamZero 0, k := 2 }).1.getLast? =
      some (1, 2) ∧
    List.Chain' (fun u w => w ∈ gridA.neighbors u.1 u.2)
      (astar gridA (3, 1) (1, 2) [] [] 8 { stream := streamZero 0, k := 2 }).1 ∧
    ∀ c ∈ (astar gridA (3, 1) (1, 2) [] [] 8 { stream := streamZero 0, k := 2 }).1,
      c = (3, 1) ∨ c = (1, 2) ∨ c ∉ ([] : List Node) :=
  C1_astar_path_valid gridA (3, 1) (1, 2) [] [] 8 { stream := streamZero 0, k := 2 }
    (astar gridA (3, 1) (1, 2) [] [] 8 { stream := streamZero 0, k := 2 }).1
    (astar gridA (3, 1) (1, 2) [] [] 8 { stream := streamZero 0, k := 2 }).2
    (fun i => le_refl 0) rfl
    (by rw [astar_pass_one]; simp)

end HexScribe
